import Mathlib

/-!
Shallow embedding of the tardigrade record-classification pipeline from
src/tardigrade_EDNA_inclusion_Script.py (with the near-duplicate variant
src/unnamed/part_000).  Python strings are modelled as Lean strings or lists
of characters, Python floats as exact rationals, and the regular expressions
of the source are hand-compiled into equivalent character-list scanners.
The network client, XML layer and spreadsheet serialisation are out of scope
(they are thin collaborators); the record model starts at the already-parsed
XML node contents.
-/

namespace Tardigrade

/-- ASCII decimal digits: the characters matched by the digit classes of the
source's regular expressions. -/
def digitChars : List Char := ['0', '1', '2', '3', '4', '5', '6', '7', '8', '9']

/-- Test for an ASCII decimal digit. -/
def isDigitCh (c : Char) : Bool := decide (c ∈ digitChars)

/-- ASCII whitespace, as matched by the whitespace class of the source's
regular expressions and stripped by str.strip (restricted to ASCII). -/
def spaceChars : List Char := [' ', '\t', '\n', '\r', '\x0b', '\x0c']

/-- Test for an ASCII whitespace character. -/
def isSpaceCh (c : Char) : Bool := decide (c ∈ spaceChars)

/-- Longest all-p front segment of a character list. -/
def takeWhileCh (p : Char → Bool) : List Char → List Char
  | [] => []
  | c :: t => if p c then c :: takeWhileCh p t else []

/-- Remainder after the longest all-p front segment. -/
def dropWhileCh (p : Char → Bool) : List Char → List Char
  | [] => []
  | c :: t => if p c then dropWhileCh p t else c :: t

/-- Python str.strip restricted to ASCII whitespace: drop whitespace from both
ends of the character list. -/
def py_strip (l : List Char) : List Char :=
  dropWhileCh isSpaceCh ((dropWhileCh isSpaceCh l.reverse).reverse)

/-- Python str.lower restricted to ASCII letters (all configured tokens and
keywords of the source are ASCII). -/
def py_lower (s : String) : String := String.mk (s.data.map Char.toLower)

/-- Does the needle occur at the very front of the list? -/
def starts_with_ch : List Char → List Char → Bool
  | [], _ => true
  | _ :: _, [] => false
  | a :: as, b :: bs => a == b && starts_with_ch as bs

/-- Does the needle occur contiguously anywhere in the haystack?  This models
the Python substring test (needle in haystack). -/
def occurs_in (needle : List Char) : List Char → Bool
  | [] => needle.isEmpty
  | c :: t => starts_with_ch needle (c :: t) || occurs_in needle t

/-- String form of the Python substring test: str_occurs n h models (n in h). -/
def str_occurs (needle hay : String) : Bool := occurs_in needle.data hay.data

/-- Python " ".join on a list of strings. -/
def join_space : List String → String
  | [] => ""
  | [s] => s
  | s :: t :: r => s ++ " " ++ join_space (t :: r)

/-- Optional sign character at the front, as matched by the sign class of the
decimal-pair regular expression.  Returns the sign characters consumed (zero
or one) and the rest. -/
def matchSign : List Char → List Char × List Char
  | '+' :: t => (['+'], t)
  | '-' :: t => (['-'], t)
  | l => ([], l)

/-- Unsigned number at the front of the list: one or more digits followed by
an optional fractional part (a dot and one or more digits), greedily, as in
the source's regular expressions.  Returns the integer digits, the optional
fraction digits, and the rest of the input; fails when no digit leads. -/
def matchUnsignedNumber (l : List Char) : Option (List Char × Option (List Char) × List Char) :=
  let ds := takeWhileCh isDigitCh l
  if ds.isEmpty then none
  else
    match dropWhileCh isDigitCh l with
    | '.' :: r2 =>
      let fs := takeWhileCh isDigitCh r2
      if fs.isEmpty then some (ds, none, '.' :: r2)
      else some (ds, some fs, dropWhileCh isDigitCh r2)
    | r => some (ds, none, r)

/-- Reassemble the exact characters a number match consumed. -/
def numChars (d : List Char) (f : Option (List Char)) : List Char :=
  match f with
  | none => d
  | some fs => d ++ '.' :: fs

/-- The anchored decimal-pair pattern of parse_lat_lon: optional whitespace, a
sign-prefixed decimal, whitespace, one of comma/semicolon/slash, whitespace,
a second sign-prefixed decimal, optional whitespace, end of input.  Returns
the two matched groups verbatim. -/
def decimalPairMatch (l : List Char) : Option (List Char × List Char) :=
  let l1 := dropWhileCh isSpaceCh l
  let (sg1, l2) := matchSign l1
  match matchUnsignedNumber l2 with
  | none => none
  | some (d1, f1, l3) =>
    match dropWhileCh isSpaceCh l3 with
    | [] => none
    | c :: l5 =>
      if c = ',' ∨ c = ';' ∨ c = '/' then
        let l6 := dropWhileCh isSpaceCh l5
        let (sg2, l7) := matchSign l6
        match matchUnsignedNumber l7 with
        | none => none
        | some (d2, f2, l8) =>
          if (dropWhileCh isSpaceCh l8).isEmpty then
            some (sg1 ++ numChars d1 f1, sg2 ++ numChars d2 f2)
          else none
      else none

/-- North/south hemisphere letters of the degree pattern. -/
def hemiNS (c : Char) : Bool := c == 'N' || c == 'S' || c == 'n' || c == 's'

/-- East/west hemisphere letters of the degree pattern. -/
def hemiEW (c : Char) : Bool := c == 'E' || c == 'W' || c == 'e' || c == 'w'

/-- Characters allowed in the separator between the two halves of the degree
pattern: anything that is not a digit, a minus, or a plus. -/
def isSepCh (c : Char) : Bool := !isDigitCh c && !(c == '-') && !(c == '+')

/-- A successful match of the degree-with-hemisphere pattern: the latitude
digits and optional fraction, the north/south letter, the longitude digits
and optional fraction, and the east/west letter. -/
structure DegMatch where
  d1 : List Char
  f1 : Option (List Char)
  ns : Char
  d2 : List Char
  f2 : Option (List Char)
  ew : Char
deriving DecidableEq

/-- Attempt the degree-with-hemisphere pattern starting exactly at the head of
the list: number, whitespace, N/S letter, a nonempty run of non-numeric
separator characters, number, whitespace, E/W letter. -/
def degreeTryAt (l : List Char) : Option DegMatch :=
  match matchUnsignedNumber l with
  | none => none
  | some (d1, f1, r1) =>
    match dropWhileCh isSpaceCh r1 with
    | [] => none
    | c1 :: r3 =>
      if hemiNS c1 then
        if (takeWhileCh isSepCh r3).isEmpty then none
        else
          match matchUnsignedNumber (dropWhileCh isSepCh r3) with
          | none => none
          | some (d2, f2, r4) =>
            match dropWhileCh isSpaceCh r4 with
            | [] => none
            | c2 :: _ => if hemiEW c2 then some ⟨d1, f1, c1, d2, f2, c2⟩ else none
      else none

/-- Leftmost search for the degree-with-hemisphere pattern, trying every start
position from the left as re.search does. -/
def degreeSearch : List Char → Option DegMatch
  | [] => none
  | c :: t =>
    match degreeTryAt (c :: t) with
    | some m => some m
    | none => degreeSearch t

/-- Integer digits with leading zeros removed, at least one digit kept. -/
def canonIntChars (d : List Char) : List Char :=
  match dropWhileCh (fun c => c == '0') d with
  | [] => ['0']
  | l => l

/-- Fraction digits with trailing zeros removed, at least one digit kept; an
absent fraction becomes the single digit 0. -/
def canonFracChars : Option (List Char) → List Char
  | none => ['0']
  | some fs =>
    match (dropWhileCh (fun c => c == '0') fs.reverse).reverse with
    | [] => ['0']
    | l => l

/-- Decimal rendering of the float the degree branch builds: Python converts
the matched digits with float() and formats the (possibly negated) value with
an f-string.  For decimal inputs of coordinate-scale precision that rendering
is the canonical decimal form modelled here (leading zeros dropped, trailing
fraction zeros dropped, a ".0" fraction for whole numbers, a leading minus
when negated - including Python's negative zero).  The scientific notation
Python switches to for magnitudes at or above 1e16 is not modelled. -/
def floatStrOf (neg : Bool) (d : List Char) (f : Option (List Char)) : List Char :=
  (if neg then ['-'] else []) ++ canonIntChars d ++ '.' :: canonFracChars f

/-- Does the north/south letter call for negating the latitude?  The source
upper-cases the letter and compares with S. -/
def is_south (c : Char) : Bool := c == 'S' || c == 's'

/-- Does the east/west letter call for negating the longitude? -/
def is_west (c : Char) : Bool := c == 'W' || c == 'w'

/-- parse_lat_lon from the source: empty input yields two empty strings; the
stripped input is matched against the anchored decimal-pair pattern, whose
groups are returned verbatim; otherwise the degree-with-hemisphere pattern is
searched for, and its numbers are returned with the latitude negated for a
southern letter and the longitude negated for a western letter; if neither
matches, two empty strings are returned. -/
def parse_lat_lon (s : String) : String × String :=
  if s.data.isEmpty then ("", "")
  else
    let t := py_strip s.data
    match decimalPairMatch t with
    | some (g1, g2) => (String.mk g1, String.mk g2)
    | none =>
      match degreeSearch t with
      | some m =>
        (String.mk (floatStrOf (is_south m.ns) m.d1 m.f1),
         String.mk (floatStrOf (is_west m.ew) m.d2 m.f2))
      | none => ("", "")

/-- The five marker columns of pick_marker: each flag is the string X when the
marker was detected and empty otherwise, as in the source's dictionary. -/
structure MarkerFlags where
  coi : String
  m18S : String
  m28S : String
  its1 : String
  its2 : String
deriving DecidableEq

/-- pick_marker from the source: lower-case the definition and feature text
joined by one space and set each marker flag by plain substring search. -/
def pick_marker (defn featText : String) : MarkerFlags :=
  let text := py_lower (defn ++ " " ++ featText)
  { coi := if str_occurs "coi" text || str_occurs "cox1" text ||
              str_occurs "cytochrome oxidase subunit i" text then "X" else ""
    m18S := if str_occurs "18s" text || str_occurs "small subunit" text ||
               str_occurs "ssu" text then "X" else ""
    m28S := if str_occurs "28s" text || str_occurs "large subunit" text ||
               str_occurs "lsu" text then "X" else ""
    its1 := if str_occurs "its1" text then "X" else ""
    its2 := if str_occurs "its2" text then "X" else "" }

/-- Python float() on the strings this pipeline produces: optional whitespace,
optional sign, digits with an optional fractional part (at least one digit on
one side of the dot), an optional exponent, end of input.  Values are exact
rationals; the inf/nan spellings and digit underscores accepted by Python are
not modelled. -/
def digitsToNat (l : List Char) : Nat :=
  l.foldl (fun a c => a * 10 + (c.toNat - '0'.toNat)) 0

/-- Assemble a rational from sign characters, integer digits, fraction digits
and a decimal exponent. -/
def ratOfParts (sg ip fp : List Char) (e : ℤ) : ℚ :=
  (if sg = ['-'] then (-1 : ℚ) else 1) *
    ((digitsToNat ip : ℚ) + (digitsToNat fp : ℚ) / (10 : ℚ) ^ fp.length) * (10 : ℚ) ^ e

/-- Python float() as a partial function to exact rationals; none models the
ValueError the source catches. -/
def py_float? (s : String) : Option ℚ :=
  let l := py_strip s.data
  let (sg, l1) := matchSign l
  let ip := takeWhileCh isDigitCh l1
  let r1 := dropWhileCh isDigitCh l1
  let hasPoint : Bool := match r1 with | '.' :: _ => true | _ => false
  let fp := match r1 with | '.' :: t => takeWhileCh isDigitCh t | _ => []
  let r2 := match r1 with | '.' :: t => dropWhileCh isDigitCh t | _ => r1
  if ip.isEmpty && (!hasPoint || fp.isEmpty) then none
  else
    match r2 with
    | [] => some (ratOfParts sg ip fp 0)
    | c :: t =>
      if c = 'e' ∨ c = 'E' then
        let (esg, t1) := matchSign t
        let ed := takeWhileCh isDigitCh t1
        if ed.isEmpty || !(dropWhileCh isDigitCh t1).isEmpty then none
        else some (ratOfParts sg ip fp
          (if esg = ['-'] then -(digitsToNat ed : ℤ) else (digitsToNat ed : ℤ)))
      else none

/-- One structured cross-reference entry of a reference node; the database
name and identifier value come from findtext with an empty-string default. -/
structure Xref where
  dbname : String
  idValue : String
deriving DecidableEq

/-- A reference node of either XML schema, reduced to the parts the citation
extractor reads: the optional structured cross-reference lists of the two
vocabularies (none models an absent element) and the six optional free-text
fields (none models an absent tag). -/
structure RefNode where
  insdXref : Option (List Xref)
  gbXref : Option (List Xref)
  insdTitle : Option String
  insdJournal : Option String
  insdRemark : Option String
  gbTitle : Option String
  gbJournal : Option String
  gbRemark : Option String
deriving DecidableEq

/-- The loop body of extract_doi_any over one structured cross-reference list:
return the stripped identifier of the first entry whose lower-cased database
name is doi and whose identifier is nonempty; entries with a doi name but an
empty identifier are skipped, as in the source. -/
def scan_xrefs : List Xref → Option String
  | [] => none
  | x :: rest =>
    if py_lower x.dbname = "doi" then
      if x.idValue ≠ "" then some (String.mk (py_strip x.idValue.data))
      else scan_xrefs rest
    else scan_xrefs rest

/-- The free-text parts extract_doi_any concatenates: the six title, journal
and remark fields of both schema vocabularies, in tag order, keeping only
present nonempty texts (the Python truthiness test). -/
def collect_parts (r : RefNode) : List String :=
  [r.insdTitle, r.insdJournal, r.insdRemark, r.gbTitle, r.gbJournal, r.gbRemark].filterMap
    (fun o => match o with
      | some t => if t ≠ "" then some t else none
      | none => none)

/-- Characters allowed in the tail of a DOI by the source's pattern: anything
that is not whitespace, a double quote, or an angle bracket. -/
def isDoiBodyCh (c : Char) : Bool := !isSpaceCh c && !(c == '\"') && !(c == '<') && !(c == '>')

/-- Attempt the DOI pattern exactly at the head of the list: the characters
10 and a dot, then four to nine digits, a slash, and a nonempty greedy run of
DOI-body characters.  The digit run is maximal, as backtracking over the
digit counter cannot succeed when it is followed by another digit. -/
def doiTryAt (l : List Char) : Option (List Char) :=
  match l with
  | '1' :: '0' :: '.' :: rest =>
    let ds := takeWhileCh isDigitCh rest
    if 4 ≤ ds.length ∧ ds.length ≤ 9 then
      match dropWhileCh isDigitCh rest with
      | '/' :: r3 =>
        let body := takeWhileCh isDoiBodyCh r3
        if body.isEmpty then none
        else some ('1' :: '0' :: '.' :: ds ++ '/' :: body)
      | _ => none
    else none
  | _ => none

/-- Leftmost search for the DOI pattern, as re.search does. -/
def doi_search : List Char → Option (List Char)
  | [] => none
  | c :: t =>
    match doiTryAt (c :: t) with
    | some m => some m
    | none => doi_search t

/-- extract_doi_any from the source: scan the first schema's structured
cross-reference list when the element is present, then the second schema's,
and only if neither scan returned a value, join the present free-text parts
with single spaces and search them for the DOI pattern, returning the match
or the empty string. -/
def extract_doi_any (r : RefNode) : String :=
  match (match r.insdXref with | some xs => scan_xrefs xs | none => none) with
  | some v => v
  | none =>
    match (match r.gbXref with | some xs => scan_xrefs xs | none => none) with
    | some v => v
    | none =>
      match doi_search (join_space (collect_parts r)).data with
      | some m => String.mk m
      | none => ""

/-- The configuration globals the pipeline reads, gathered into one record:
the region-filter switch, the bounding-box switch and bounds, the
general-Pacific switch, the locality token list, the eDNA classification
switch and keyword list, the relaxed eDNA region switch, and the population
aggregation switch and rounding precision. -/
structure Config where
  regionFilterEnabled : Bool
  useLatLonBox : Bool
  latMin : ℚ
  latMax : ℚ
  lonMin : ℚ
  lonMax : ℚ
  regionAllowPacificGeneral : Bool
  regionTextTokens : List String
  classifyEdna : Bool
  ednaKeywords : List String
  ednaRegionRelaxed : Bool
  computePopulationRep : Bool
  groupRound : Nat

/-- The general-Pacific tokens listed inline in region_match. -/
def pacific_general_tokens : List String :=
  ["pacific ocean", "north pacific", "eastern pacific", "northeast pacific",
   "california current", "west coast"]

/-- The EDNA_KEYWORDS list of the source. -/
def edna_keywords_default : List String :=
  ["edna", "environmental dna", "environmental sample", "metabarcoding",
   "metagenom", "amplicon", "bulk sample", "seawater", "sea water",
   "water filter", "plankton", "sediment", "marine sediment", "biofilm"]

/-- The REGION_TEXT_TOKENS list of the source. -/
def region_text_tokens_default : List String :=
  ["alaska", "british columbia", "washington", "oregon", "california",
   "baja california", "baja california sur", "baja california norte",
   "usa: alaska", "usa: washington", "usa: oregon", "usa: california",
   "canada: british columbia", "mexico: baja california",
   "mexico: baja california sur", "mexico: baja california norte",
   "us: ak", "us: wa", "us: or", "us: ca", "usa: ak", "usa: wa", "usa: or",
   "usa: ca", "canada: bc", "ca: bc", "mexico: bc", "mexico: bcs",
   "mexico: bcn", "bcs", "bcn",
   "pacific ocean", "north pacific", "eastern pacific", "northeast pacific",
   "california current", "west coast",
   "gulf of alaska", "aleutian", "prince william sound", "kodiak", "kenai",
   "kachemak", "southeast alaska", "sitka", "ketchikan", "juneau",
   "vancouver island", "haida gwaii", "queen charlotte", "inside passage",
   "strait of georgia", "salish sea", "juan de fuca", "barkley sound",
   "tofino", "ucluelet",
   "puget sound", "san juan islands", "olympic coast", "grays harbor",
   "willapa bay",
   "columbia river", "tillamook", "coos bay", "yaquina", "newport",
   "brookings", "oregon coast",
   "humboldt", "trinidad head", "mendocino", "bodega bay", "point reyes",
   "san francisco bay", "half moon bay", "monterey bay", "moss landing",
   "carmel", "point lobos", "big sur", "morro bay", "avila", "pismo",
   "santa barbara", "goleta", "santa barbara channel", "channel islands",
   "anacapa", "santa cruz island", "point conception", "santa catalina",
   "catalina island", "san pedro", "long beach", "palos verdes", "redondo",
   "santa monica bay", "malibu", "ventura", "la jolla", "scripps pier",
   "mission bay", "san diego", "san diego bay", "imperial beach",
   "ensenada", "rosarito", "san quintín", "bahía san quintín",
   "bahia san quintin", "bahía de los ángeles", "bahia de los angeles",
   "isla de cedros", "bahía tortugas", "bahia tortugas", "guerrero negro",
   "laguna ojo de liebre", "vizcaíno", "laguna san ignacio",
   "bahía magdalena", "bahia magdalena", "loreto", "bahía concepción",
   "bahia concepcion", "mulegé", "mulege", "la paz", "cabo san lucas",
   "san josé del cabo", "san jose del cabo", "todos santos",
   "gulf of california", "sea of cortez", "mar de cortés", "mar de cortes"]

/-- The configuration constants as assigned at the top of the source file. -/
def defaultConfig : Config :=
  { regionFilterEnabled := true
    useLatLonBox := true
    latMin := 22
    latMax := 72
    lonMin := -180
    lonMax := -100
    regionAllowPacificGeneral := true
    regionTextTokens := region_text_tokens_default
    classifyEdna := true
    ednaKeywords := edna_keywords_default
    ednaRegionRelaxed := true
    computePopulationRep := true
    groupRound := 2 }

/-- The combined lower-cased text region_match and detect_edna build: the
locality, definition and feature text joined and padded with single spaces. -/
def mk_blob (locality defn featText : String) : String :=
  py_lower (" " ++ locality ++ " " ++ defn ++ " " ++ featText ++ " ")

/-- region_match from the source: with the region filter off, match with
reason disabled; otherwise try the general-Pacific tokens (when allowed),
then the configured locality tokens, then the bounding box on a parsed
coordinate pair; report the reason of the first hit, or no match with reason
none. -/
def region_match (cfg : Config) (locality defn featText latRaw : String) :
    Bool × String :=
  if !cfg.regionFilterEnabled then (true, "disabled")
  else
    let blob := mk_blob locality defn featText
    if cfg.regionAllowPacificGeneral &&
        pacific_general_tokens.any (fun tok => str_occurs tok blob) then
      (true, "pacific")
    else if cfg.regionTextTokens.any (fun tok => str_occurs tok blob) then
      (true, "text")
    else if cfg.useLatLonBox && !(latRaw == "") then
      let p := parse_lat_lon latRaw
      if !(p.1 == "") && !(p.2 == "") then
        match py_float? p.1, py_float? p.2 with
        | some latF, some lonF =>
          if cfg.latMin ≤ latF ∧ latF ≤ cfg.latMax ∧
             cfg.lonMin ≤ lonF ∧ lonF ≤ cfg.lonMax then
            (true, "latlon")
          else (false, "none")
        | _, _ => (false, "none")
      else (false, "none")
    else (false, "none")

/-- detect_edna from the source: with classification off, report off;
otherwise an environmental or metagenomic qualifier name wins with reason
qualifier, then any configured keyword occurring in the combined text wins
with reason keyword, else no. -/
def detect_edna (cfg : Config) (locality defn featText : String)
    (qualNames : List String) : Bool × String :=
  if !cfg.classifyEdna then (false, "off")
  else
    let blob := mk_blob locality defn featText
    if qualNames.contains "environmental_sample" ||
        qualNames.contains "metagenomic" then (true, "qualifier")
    else if cfg.ednaKeywords.any (fun k => str_occurs k blob) then (true, "keyword")
    else (false, "")

/-- The normalized record both XML parsers build: accession, organism,
definition, locality, raw coordinate string, depth, collection date, DOI,
feature notes in discovery order, and the qualifier names seen under source
features (a set in Python; membership is all that is ever used). -/
structure Rec where
  accession : String
  organism : String
  defn : String
  locality : String
  latRaw : String
  depth : String
  date : String
  doi : String
  featureNotes : List String
  qualNames : List String
deriving DecidableEq

/-- One qualifier of a feature: name and value as returned by findtext with
an empty-string default. -/
structure Qual where
  name : String
  value : String
deriving DecidableEq

/-- One feature of the feature table: its key and its qualifier list. -/
structure Feature where
  key : String
  quals : List Qual
deriving DecidableEq

/-- A sequence-record node of either schema, reduced to the parts the parsers
read.  The two Python parsers are textually identical up to tag names, so one
node shape models both the first and second vocabulary. -/
structure SeqNode where
  accessionVersion : Option String
  primaryAccession : Option String
  organism : Option String
  defn : Option String
  features : List Feature
  references : List RefNode

/-- Python's (a or b) for an optional string against a default: a missing or
empty text falls through to the default. -/
def py_or (o : Option String) (dflt : String) : String :=
  match o with
  | some s => if s = "" then dflt else s
  | none => dflt

/-- The per-qualifier update of the parsing loop: under a source-keyed
feature record the lower-cased name, then assign locality, raw coordinates,
depth or date, or append an isolation-source or note value; under any other
feature append gene or product values.  Later assignments overwrite earlier
ones, appends keep order. -/
def apply_qual (key : String) (r : Rec) (q : Qual) : Rec :=
  let name := py_lower q.name
  let val := q.value
  if key = "source" then
    let r1 := { r with qualNames := r.qualNames ++ [name] }
    if name = "country" then { r1 with locality := val }
    else if name = "lat_lon" ∨ name = "lat-lon" ∨ name = "lat-long" ∨
        name = "latlong" then { r1 with latRaw := val }
    else if name = "depth" then { r1 with depth := val }
    else if name = "collection_date" then { r1 with date := val }
    else if (name = "isolation_source" ∨ name = "note") ∧ val ≠ "" then
      { r1 with featureNotes := r1.featureNotes ++ [val] }
    else r1
  else
    if (name = "gene" ∨ name = "product") ∧ val ≠ "" then
      { r with featureNotes := r.featureNotes ++ [val] }
    else r

/-- Process one feature: fold its qualifiers over the record state. -/
def parse_feature (r : Rec) (f : Feature) : Rec :=
  f.quals.foldl (apply_qual f.key) r

/-- The record before the feature scan: accession prefers the
version-qualified field over the primary field, organism and definition
default to empty, and every other field starts empty. -/
def init_rec (n : SeqNode) : Rec :=
  { accession := py_or n.accessionVersion (py_or n.primaryAccession "")
    organism := py_or n.organism ""
    defn := py_or n.defn ""
    locality := ""
    latRaw := ""
    depth := ""
    date := ""
    doi := ""
    featureNotes := []
    qualNames := [] }

/-- The per-node body of both XML parsing loops: build the initial record,
scan the feature table, and set the DOI from the first reference when the
reference list is nonempty. -/
def parse_seq_node (n : SeqNode) : Rec :=
  let r := n.features.foldl parse_feature (init_rec n)
  match n.references with
  | [] => r
  | ref :: _ => { r with doi := extract_doi_any ref }

/-- One output row, with the fourteen columns of the spreadsheet schema. -/
structure Row where
  speciesId : String
  coi : String
  m18S : String
  m28S : String
  its1 : String
  its2 : String
  latitude : String
  longitude : String
  locality : String
  depth : String
  collectionDate : String
  populationRep : String
  dataType : String
  citationDoi : String
deriving DecidableEq

/-- The region decision a record receives inside the routing loop. -/
def rec_region_ok (cfg : Config) (rec : Rec) : Bool :=
  (region_match cfg rec.locality rec.defn (join_space rec.featureNotes) rec.latRaw).1

/-- The eDNA classification a record receives inside the routing loop. -/
def rec_is_edna (cfg : Config) (rec : Rec) : Bool :=
  (detect_edna cfg rec.locality rec.defn (join_space rec.featureNotes) rec.qualNames).1

/-- The row built for one record: marker columns carry the accession exactly
when the marker flag is nonempty, coordinates come from the parser, the
population column starts empty, and the data type reflects the eDNA
classification when classification is on. -/
def build_row (cfg : Config) (rec : Rec) : Row :=
  let featText := join_space rec.featureNotes
  let markers := pick_marker rec.defn featText
  let p := parse_lat_lon rec.latRaw
  { speciesId := rec.organism
    coi := if markers.coi ≠ "" then rec.accession else ""
    m18S := if markers.m18S ≠ "" then rec.accession else ""
    m28S := if markers.m28S ≠ "" then rec.accession else ""
    its1 := if markers.its1 ≠ "" then rec.accession else ""
    its2 := if markers.its2 ≠ "" then rec.accession else ""
    latitude := p.1
    longitude := p.2
    locality := rec.locality
    depth := rec.depth
    collectionDate := rec.date
    populationRep := ""
    dataType := if rec_is_edna cfg rec && cfg.classifyEdna then "eDNA" else "Individual"
    citationDoi := rec.doi }

/-- The routing loop of the row builder, diagnostics dropped: a record
failing the region check that is not eDNA is skipped early when the filter is
on; an eDNA record (with classification on) lands in the eDNA rows when the
filter is off, the region matched, or the relaxed flag is set; any other
record lands in the individual rows when the filter is off or the region
matched; all other records produce no row. -/
def build_rows_from_parsed (cfg : Config) : List Rec → List Row × List Row
  | [] => ([], [])
  | rec :: rest =>
    let tl := build_rows_from_parsed cfg rest
    let ok := rec_region_ok cfg rec
    let isE := rec_is_edna cfg rec
    if !ok && !isE && cfg.regionFilterEnabled then tl
    else if isE && cfg.classifyEdna then
      if !cfg.regionFilterEnabled || ok || cfg.ednaRegionRelaxed then
        (tl.1, build_row cfg rec :: tl.2)
      else tl
    else if !cfg.regionFilterEnabled || ok then
      (build_row cfg rec :: tl.1, tl.2)
    else tl

/-- Round-half-to-even to an integer, the tie rule of Python's round. -/
def round_half_even (x : ℚ) : ℤ :=
  let f := ⌊x⌋
  let r := x - (f : ℚ)
  if r < 1 / 2 then f
  else if 1 / 2 < r then f + 1
  else if f % 2 = 0 then f else f + 1

/-- Python round(x, p) on exact rationals. -/
def py_round (p : Nat) (x : ℚ) : ℚ :=
  (round_half_even (x * (10 : ℚ) ^ p) : ℚ) / (10 : ℚ) ^ p

/-- A population grouping key: species, locality, date, and either rounded
numeric coordinates or, when float() fails on either coordinate string, the
two raw strings.  The sum mirrors the Python tuple holding floats or
strings, which never compare equal across kinds. -/
abbrev GroupKey := String × String × String × (ℚ ⊕ String) × (ℚ ⊕ String)

/-- The grouping key of one row: both coordinates rounded to the configured
precision when both parse as floats, otherwise both raw strings (a single
except clause covers the two conversions in the source). -/
def group_key (cfg : Config) (r : Row) : GroupKey :=
  match py_float? r.latitude, py_float? r.longitude with
  | some a, some b =>
    (r.speciesId, r.locality, r.collectionDate,
     Sum.inl (py_round cfg.groupRound a), Sum.inl (py_round cfg.groupRound b))
  | _, _ => (r.speciesId, r.locality, r.collectionDate, Sum.inr r.latitude, Sum.inr r.longitude)

/-- Increment a key's tally in the association list modelling the counting
dictionary of add_population_rep. -/
def bump_count (k : GroupKey) : List (GroupKey × Nat) → List (GroupKey × Nat)
  | [] => [(k, 1)]
  | (k', n) :: rest =>
    if k' = k then (k', n + 1) :: rest else (k', n) :: bump_count k rest

/-- Read a key's tally from the counting dictionary, zero when absent. -/
def lookup_count (k : GroupKey) : List (GroupKey × Nat) → Nat
  | [] => 0
  | (k', n) :: rest => if k' = k then n else lookup_count k rest

/-- Overwrite the population-representation column of a row. -/
def set_pop_rep (r : Row) (v : String) : Row := { r with populationRep := v }

/-- add_population_rep from the source: with the aggregation switch off or an
empty input the rows are returned unchanged; otherwise a first pass computes
every row's grouping key and tallies them, and a second pass writes each
row's group size as a decimal string when it exceeds one and the empty string
otherwise. -/
def add_population_rep (cfg : Config) (rows : List Row) : List Row :=
  if !cfg.computePopulationRep || rows.isEmpty then rows
  else
    let keys := rows.map (group_key cfg)
    let counts := keys.foldl (fun m k => bump_count k m) []
    (rows.zip keys).map (fun rk =>
      set_pop_rep rk.1
        (if 1 < lookup_count rk.2 counts then toString (lookup_count rk.2 counts) else ""))

/-! Spec-side definitions: the following definitions restate, in the
specification's vocabulary, the decision rules the claims describe.  The
theorems below relate them to the source-derived functions above. -/

/-- The lower-cased concatenation of the definition and the feature-note
text that drives marker detection. -/
def marker_text (defn featText : String) : String :=
  py_lower (defn ++ " " ++ featText)

/-- The COI keyword rule of the specification. -/
def coi_rule (t : String) : Bool :=
  str_occurs "coi" t || str_occurs "cox1" t ||
    str_occurs "cytochrome oxidase subunit i" t

/-- The 18S keyword rule of the specification. -/
def r18s_rule (t : String) : Bool :=
  str_occurs "18s" t || str_occurs "small subunit" t || str_occurs "ssu" t

/-- The 28S keyword rule of the specification. -/
def r28s_rule (t : String) : Bool :=
  str_occurs "28s" t || str_occurs "large subunit" t || str_occurs "lsu" t

/-- The ITS1 keyword rule of the specification. -/
def its1_rule (t : String) : Bool := str_occurs "its1" t

/-- The ITS2 keyword rule of the specification. -/
def its2_rule (t : String) : Bool := str_occurs "its2" t

/-- Region rule two of the specification: a general-Pacific token occurs in
the combined text (gated by its enable switch, which the source defaults to
on). -/
def pacific_hit (cfg : Config) (blob : String) : Bool :=
  cfg.regionAllowPacificGeneral &&
    pacific_general_tokens.any (fun tok => str_occurs tok blob)

/-- Region rule three of the specification: a configured locality token
occurs in the combined text. -/
def text_hit (cfg : Config) (blob : String) : Bool :=
  cfg.regionTextTokens.any (fun tok => str_occurs tok blob)

/-- Region rule four of the specification: the box check is enabled, the raw
string is nonempty, a coordinate pair parses, both coordinates convert to
numbers, and the pair lies inside the inclusive bounding box. -/
def latlon_box_hit (cfg : Config) (latRaw : String) : Bool :=
  cfg.useLatLonBox && !(latRaw == "") &&
    (let p := parse_lat_lon latRaw
     !(p.1 == "") && !(p.2 == "") &&
       match py_float? p.1, py_float? p.2 with
       | some latF, some lonF =>
         decide (cfg.latMin ≤ latF ∧ latF ≤ cfg.latMax ∧
                 cfg.lonMin ≤ lonF ∧ lonF ≤ cfg.lonMax)
       | _, _ => false)

/-- The routing rule for individual records: the record is not classified
eDNA (with classification on), and the region filter is off or the region
decision matched. -/
def keep_individual (cfg : Config) (rec : Rec) : Bool :=
  !(rec_is_edna cfg rec && cfg.classifyEdna) &&
    (!cfg.regionFilterEnabled || rec_region_ok cfg rec)

/-- The routing rule for eDNA records: the record is classified eDNA with
classification on, and the region filter is off, the region decision
matched, or the relaxed eDNA inclusion flag is set. -/
def keep_edna (cfg : Config) (rec : Rec) : Bool :=
  (rec_is_edna cfg rec && cfg.classifyEdna) &&
    (!cfg.regionFilterEnabled || rec_region_ok cfg rec || cfg.ednaRegionRelaxed)

/-- The structured DOI lookup as the specification words it: the first entry
of the two concatenated cross-reference lists whose database name equals doi
case-insensitively and whose value is nonempty yields its stripped value. -/
def spec_structured_doi (r : RefNode) : Option String :=
  ((r.insdXref.getD []) ++ (r.gbXref.getD [])).find?
      (fun x => py_lower x.dbname == "doi" && x.idValue != "") |>.map
    (fun x => String.mk (py_strip x.idValue.data))

/-- The free-text fallback as the specification words it: join the present
free-text fields and search them for the DOI pattern, the empty string when
nothing is found. -/
def spec_text_doi (r : RefNode) : String :=
  match doi_search (join_space (collect_parts r)).data with
  | some m => String.mk m
  | none => ""

/-- Number of occurrences of a grouping key in a key list. -/
def count_key (k : GroupKey) : List GroupKey → Nat
  | [] => 0
  | x :: t => (if x = k then 1 else 0) + count_key k t

/-- The population annotation a row receives: the decimal string of its group
size when that size exceeds one, the empty string otherwise. -/
def pop_rep_string (n : Nat) : String := if 1 < n then toString n else ""

/-- Erase the population-representation column, leaving the thirteen columns
the aggregation pass must not touch. -/
def clear_pop_rep (r : Row) : Row := set_pop_rep r ""

/-! Theorems. -/

/-- Reduce the accession-or-empty conditional of the row builder over the
X-or-empty marker flag it tests. -/
theorem if_flag_nonempty (b : Bool) (a : String) :
    (if (if b then "X" else "") ≠ "" then a else "") = if b then a else "" := by
  cases b <;> simp

/-- C3: for every record built into a row, each of the five marker columns
holds the record's accession string exactly when the corresponding keyword
rule matches the lower-cased concatenation of the definition and feature-note
text, and the empty string otherwise; the five rules are independent, so
several columns may hold the accession simultaneously. -/
theorem c3_marker_columns (cfg : Config) (rec : Rec) :
    ((build_row cfg rec).coi =
      if coi_rule (marker_text rec.defn (join_space rec.featureNotes))
      then rec.accession else "") ∧
    ((build_row cfg rec).m18S =
      if r18s_rule (marker_text rec.defn (join_space rec.featureNotes))
      then rec.accession else "") ∧
    ((build_row cfg rec).m28S =
      if r28s_rule (marker_text rec.defn (join_space rec.featureNotes))
      then rec.accession else "") ∧
    ((build_row cfg rec).its1 =
      if its1_rule (marker_text rec.defn (join_space rec.featureNotes))
      then rec.accession else "") ∧
    ((build_row cfg rec).its2 =
      if its2_rule (marker_text rec.defn (join_space rec.featureNotes))
      then rec.accession else "") := by
  refine ⟨?_, ?_, ?_, ?_, ?_⟩ <;>
    · simp only [build_row, pick_marker, marker_text, coi_rule, r18s_rule,
        r28s_rule, its1_rule, its2_rule]
      exact if_flag_nonempty _ _

/-- The qualifier update never touches the DOI field. -/
theorem apply_qual_doi (key : String) (r : Rec) (q : Qual) :
    (apply_qual key r q).doi = r.doi := by
  simp only [apply_qual]
  repeat' split
  all_goals rfl

/-- The qualifier fold of one feature never touches the DOI field. -/
theorem foldl_apply_qual_doi (key : String) (qs : List Qual) (r : Rec) :
    (qs.foldl (apply_qual key) r).doi = r.doi := by
  induction qs generalizing r with
  | nil => rfl
  | cons q t ih => rw [List.foldl_cons, ih, apply_qual_doi]

/-- The feature-table fold never touches the DOI field. -/
theorem foldl_parse_feature_doi (fs : List Feature) (r : Rec) :
    (fs.foldl parse_feature r).doi = r.doi := by
  induction fs generalizing r with
  | nil => rfl
  | cons f t ih =>
    rw [List.foldl_cons, ih]
    exact foldl_apply_qual_doi f.key f.quals r

/-- C6: only the first reference of a record is consulted for DOI
extraction: with a nonempty reference list the record's DOI is the extractor
applied to the first reference alone, two nodes differing only in the
references after the first parse to identical records, and a node with no
references yields the empty DOI. -/
theorem c6_first_reference_only (n : SeqNode) (ref : RefNode)
    (rest rest2 : List RefNode) :
    (parse_seq_node { n with references := ref :: rest }).doi = extract_doi_any ref ∧
    parse_seq_node { n with references := ref :: rest } =
      parse_seq_node { n with references := ref :: rest2 } ∧
    (parse_seq_node { n with references := [] }).doi = "" := by
  refine ⟨rfl, rfl, ?_⟩
  simp only [parse_seq_node]
  rw [foldl_parse_feature_doi]
  rfl

/-- The region decision equals the specification's rule chain: disabled
filter, general-Pacific token, configured locality token, bounding box, in
that order, with the corresponding reason tags. -/
theorem region_match_eq_rule_chain (cfg : Config)
    (locality defn featText latRaw : String) :
    region_match cfg locality defn featText latRaw =
      if cfg.regionFilterEnabled = false then (true, "disabled")
      else if pacific_hit cfg (mk_blob locality defn featText) then (true, "pacific")
      else if text_hit cfg (mk_blob locality defn featText) then (true, "text")
      else if latlon_box_hit cfg latRaw then (true, "latlon")
      else (false, "none") := by
  simp only [region_match, pacific_hit, text_hit, latlon_box_hit]
  cases cfg.regionFilterEnabled
  · simp
  · simp only [Bool.not_true, Bool.false_eq_true, if_false, reduceIte]
    cases hB : (cfg.regionAllowPacificGeneral &&
        pacific_general_tokens.any fun tok => str_occurs tok (mk_blob locality defn featText))
    · simp only [Bool.false_eq_true, if_false, reduceIte]
      cases hC : (cfg.regionTextTokens.any fun tok => str_occurs tok (mk_blob locality defn featText))
      · simp only [Bool.false_eq_true, if_false, reduceIte]
        by_cases hD : (cfg.useLatLonBox && !(latRaw == "")) = true
        case neg =>
          simp only [Bool.not_eq_true] at hD
          simp [hD]
        case pos =>
          simp only [hD, if_true, Bool.true_and, reduceIte]
          by_cases hE : (!((parse_lat_lon latRaw).1 == "") && !((parse_lat_lon latRaw).2 == "")) = true
          case neg =>
            simp only [Bool.not_eq_true] at hE
            simp [hE]
          case pos =>
            simp only [hE, if_true, Bool.true_and, reduceIte]
            cases hF1 : py_float? (parse_lat_lon latRaw).1 with
            | none => simp
            | some la =>
              cases hF2 : py_float? (parse_lat_lon latRaw).2 with
              | none => simp
              | some lo =>
                by_cases hG : cfg.latMin ≤ la ∧ la ≤ cfg.latMax ∧
                    cfg.lonMin ≤ lo ∧ lo ≤ cfg.lonMax
                · simp [hG]
                · simp [hG]
      · simp
    · simp

/-- C2: the region decision evaluates its rules in the fixed order disabled
filter, general-Pacific token, configured locality token, coordinate
bounding box, short-circuiting on the first hit, and returns the matching
reason tag, or no match with reason none. -/
theorem c2_region_decision_order (cfg : Config)
    (locality defn featText latRaw : String) :
    region_match cfg locality defn featText latRaw =
      if cfg.regionFilterEnabled = false then (true, "disabled")
      else if pacific_hit cfg (mk_blob locality defn featText) then (true, "pacific")
      else if text_hit cfg (mk_blob locality defn featText) then (true, "text")
      else if latlon_box_hit cfg latRaw then (true, "latlon")
      else (false, "none") :=
  region_match_eq_rule_chain cfg locality defn featText latRaw

/-- C10: the region decision's result pair is internally consistent: the
reason tag is one of disabled, pacific, text, latlon, none, and the Boolean
match holds exactly when the reason is not none. -/
theorem c10_region_decision_consistent (cfg : Config)
    (locality defn featText latRaw : String) :
    ((region_match cfg locality defn featText latRaw).2 = "disabled" ∨
     (region_match cfg locality defn featText latRaw).2 = "pacific" ∨
     (region_match cfg locality defn featText latRaw).2 = "text" ∨
     (region_match cfg locality defn featText latRaw).2 = "latlon" ∨
     (region_match cfg locality defn featText latRaw).2 = "none") ∧
    (region_match cfg locality defn featText latRaw).1 =
      !((region_match cfg locality defn featText latRaw).2 == "none") := by
  rw [region_match_eq_rule_chain]
  split
  · exact ⟨Or.inl rfl, by decide⟩
  split
  · exact ⟨Or.inr (Or.inl rfl), by decide⟩
  split
  · exact ⟨Or.inr (Or.inr (Or.inl rfl)), by decide⟩
  split
  · exact ⟨Or.inr (Or.inr (Or.inr (Or.inl rfl))), by decide⟩
  · exact ⟨Or.inr (Or.inr (Or.inr (Or.inr rfl))), by decide⟩

/-- Scanning a concatenation of cross-reference lists scans the first list
and falls through to the second on failure. -/
theorem scan_xrefs_append (xs ys : List Xref) :
    scan_xrefs (xs ++ ys) =
      match scan_xrefs xs with
      | some v => some v
      | none => scan_xrefs ys := by
  induction xs with
  | nil => rfl
  | cons x t ih =>
    simp only [List.cons_append, scan_xrefs]
    by_cases h1 : py_lower x.dbname = "doi"
    · by_cases h2 : x.idValue = ""
      · simp [h1, h2, ih]
      · simp [h1, h2]
    · simp [h1, ih]

/-- The cross-reference scan returns the stripped value of the first entry
satisfying the doi-name-and-nonempty-value test. -/
theorem scan_xrefs_eq_find (xs : List Xref) :
    scan_xrefs xs =
      (xs.find? (fun x => py_lower x.dbname == "doi" && x.idValue != "")).map
        (fun x => String.mk (py_strip x.idValue.data)) := by
  induction xs with
  | nil => rfl
  | cons x t ih =>
    simp only [scan_xrefs]
    by_cases h1 : py_lower x.dbname = "doi"
    · by_cases h2 : x.idValue = ""
      · rw [List.find?_cons_of_neg] <;> simp [h1, h2, ih]
      · rw [List.find?_cons_of_pos] <;> simp [h1, h2]
    · rw [List.find?_cons_of_neg] <;> simp [h1, ih]

/-- C5: the citation extractor first consults the structured cross-reference
lists of both schemas for an entry whose database name equals doi
case-insensitively with a nonempty value, and only when no structured entry
yields a value does it fall back to the free-text regex search; in
particular a structured DOI wins over any DOI-like free text. -/
theorem c5_doi_lookup_order (r : RefNode) :
    extract_doi_any r =
      match spec_structured_doi r with
      | some v => v
      | none => spec_text_doi r := by
  have hins : (match r.insdXref with | some xs => scan_xrefs xs | none => none) =
      scan_xrefs (r.insdXref.getD []) := by
    cases r.insdXref <;> rfl
  have hgb : (match r.gbXref with | some xs => scan_xrefs xs | none => none) =
      scan_xrefs (r.gbXref.getD []) := by
    cases r.gbXref <;> rfl
  simp only [extract_doi_any, spec_structured_doi, spec_text_doi, hins, hgb,
    ← scan_xrefs_eq_find, scan_xrefs_append]
  cases scan_xrefs (r.insdXref.getD []) <;>
    cases scan_xrefs (r.gbXref.getD []) <;> rfl

/-- Reading a key's tally after one increment. -/
theorem lookup_bump_count (k k' : GroupKey) (m : List (GroupKey × Nat)) :
    lookup_count k (bump_count k' m) =
      if k' = k then lookup_count k m + 1 else lookup_count k m := by
  induction m with
  | nil =>
    by_cases h : k' = k <;> simp [bump_count, lookup_count, h]
  | cons p t ih =>
    obtain ⟨a, n⟩ := p
    by_cases h1 : a = k'
    · subst h1
      by_cases h2 : a = k <;> simp [bump_count, lookup_count, h2]
    · by_cases h2 : a = k
      · subst h2
        have h3 : ¬k' = a := fun hh => h1 hh.symm
        simp [bump_count, lookup_count, h1, h3]
      · simp [bump_count, lookup_count, h1, h2, ih]

/-- After folding all keys into the tally dictionary, each key's tally is the
initial tally plus its number of occurrences. -/
theorem lookup_foldl_bump (k : GroupKey) (keys : List GroupKey) :
    ∀ acc, lookup_count k (keys.foldl (fun m k2 => bump_count k2 m) acc) =
      lookup_count k acc + count_key k keys := by
  induction keys with
  | nil => intro acc; simp [count_key]
  | cons a t ih =>
    intro acc
    rw [List.foldl_cons, ih, lookup_bump_count, count_key]
    by_cases h : a = k <;> simp [h] <;> omega

/-- Mapping over a list zipped with its own image. -/
theorem zip_map_self (l : List Row) (g : Row → GroupKey) (F : Row × GroupKey → Row) :
    ((l.zip (l.map g)).map F) = l.map (fun r => F (r, g r)) := by
  induction l with
  | nil => rfl
  | cons r t ih => simp [ih]

/-- The population aggregation pass, characterised: with the switch on it
annotates every row with its group's multiplicity (as a decimal string when
above one, empty otherwise), with the switch off it returns the input. -/
theorem add_population_rep_eq (cfg : Config) (rows : List Row) :
    add_population_rep cfg rows =
      if cfg.computePopulationRep then
        rows.map (fun r =>
          set_pop_rep r (pop_rep_string (count_key (group_key cfg r) (rows.map (group_key cfg)))))
      else rows := by
  cases hc : cfg.computePopulationRep
  · simp [add_population_rep, hc]
  · cases hrows : rows with
    | nil => simp [add_population_rep, hc]
    | cons r0 t =>
      simp only [add_population_rep, hc, Bool.not_true, Bool.false_or, List.isEmpty_cons,
        Bool.false_eq_true, if_false, reduceIte, if_true]
      rw [zip_map_self]
      have hfun : (fun r => set_pop_rep r
            (if 1 < lookup_count (group_key cfg r)
                (((r0 :: t).map (group_key cfg)).foldl (fun m k => bump_count k m) [])
             then toString (lookup_count (group_key cfg r)
                (((r0 :: t).map (group_key cfg)).foldl (fun m k => bump_count k m) []))
             else "")) =
          (fun r => set_pop_rep r
            (pop_rep_string (count_key (group_key cfg r) ((r0 :: t).map (group_key cfg))))) := by
        funext r
        rw [lookup_foldl_bump]
        simp [lookup_count, pop_rep_string]
      rw [hfun]

/-- C4: the population aggregator groups rows by the tuple of species,
locality, date and the two coordinates rounded to the configured precision
(both raw strings when either coordinate fails to parse as a number), and
writes each row's group size as a decimal string when it exceeds one and the
empty string for singleton groups; with the aggregation switch off the rows
pass through unchanged. -/
theorem c4_population_grouping (cfg : Config) (rows : List Row) :
    add_population_rep cfg rows =
      if cfg.computePopulationRep then
        rows.map (fun r =>
          set_pop_rep r (pop_rep_string (count_key (group_key cfg r) (rows.map (group_key cfg)))))
      else rows :=
  add_population_rep_eq cfg rows

/-- C9: the population aggregator is a pure annotation pass: one output row
per input row, in order, and every column other than population
representation is unchanged. -/
theorem c9_population_pure_pass (cfg : Config) (rows : List Row) :
    (add_population_rep cfg rows).length = rows.length ∧
    (add_population_rep cfg rows).map clear_pop_rep = rows.map clear_pop_rep := by
  rw [add_population_rep_eq]
  cases cfg.computePopulationRep
  · simp
  · refine ⟨by simp, ?_⟩
    simp only [if_true, reduceIte, List.map_map]
    rfl

/-- C1: routing of parsed records: with eDNA classification on, a record
classified eDNA lands in the eDNA rows exactly when the region filter is
off, the region decision matched, or the relaxed eDNA flag is set; a record
classified individual lands in the individual rows exactly when the filter
is off or the region decision matched; every other record is dropped and
produces no row, and row order follows record order. -/
theorem c1_routing_partition (cfg : Config) (parsed : List Rec) :
    build_rows_from_parsed cfg parsed =
      ((parsed.filter (keep_individual cfg)).map (build_row cfg),
       (parsed.filter (keep_edna cfg)).map (build_row cfg)) := by
  induction parsed with
  | nil => rfl
  | cons rec rest ih =>
    simp only [build_rows_from_parsed, ih, List.filter_cons]
    cases hok : rec_region_ok cfg rec <;> cases hE : rec_is_edna cfg rec <;>
      cases hR : cfg.regionFilterEnabled <;> cases hC : cfg.classifyEdna <;>
        cases hX : cfg.ednaRegionRelaxed <;>
          simp [keep_individual, keep_edna, hok, hE, hR, hC, hX]

/-- Enumerate the ten possible digit characters. -/
theorem digit_char_cases {c : Char} (h : isDigitCh c = true) :
    c = '0' ∨ c = '1' ∨ c = '2' ∨ c = '3' ∨ c = '4' ∨
    c = '5' ∨ c = '6' ∨ c = '7' ∨ c = '8' ∨ c = '9' := by
  have hm := of_decide_eq_true h
  simpa [digitChars] using hm

/-- A digit is not whitespace. -/
theorem digit_not_space {c : Char} (h : isDigitCh c = true) : isSpaceCh c = false := by
  rcases digit_char_cases h with rfl | rfl | rfl | rfl | rfl | rfl | rfl | rfl | rfl | rfl <;>
    decide

/-- A digit is not the dot, a sign, or a pair separator. -/
theorem digit_not_special {c : Char} (h : isDigitCh c = true) :
    c ≠ '.' ∧ c ≠ '+' ∧ c ≠ '-' ∧ c ≠ ',' ∧ c ≠ ';' ∧ c ≠ '/' := by
  rcases digit_char_cases h with rfl | rfl | rfl | rfl | rfl | rfl | rfl | rfl | rfl | rfl <;>
    decide

/-- A digit is not a degree-pattern separator character. -/
theorem digit_not_sep {c : Char} (h : isDigitCh c = true) : isSepCh c = false := by
  simp [isSepCh, h]

/-- Enumerate the six possible whitespace characters. -/
theorem space_char_cases {c : Char} (h : isSpaceCh c = true) :
    c = ' ' ∨ c = '\t' ∨ c = '\n' ∨ c = '\r' ∨ c = '\x0b' ∨ c = '\x0c' := by
  have hm := of_decide_eq_true h
  simpa [spaceChars] using hm

/-- A whitespace character is not a digit and not the dot. -/
theorem space_not_digit_dot {c : Char} (h : isSpaceCh c = true) :
    isDigitCh c = false ∧ c ≠ '.' ∧ c ≠ '+' ∧ c ≠ '-' := by
  rcases space_char_cases h with rfl | rfl | rfl | rfl | rfl | rfl <;> decide

/-- Facts about a north/south hemisphere letter. -/
theorem ns_letter_facts {c : Char} (h : c = 'N' ∨ c = 'S' ∨ c = 'n' ∨ c = 's') :
    hemiNS c = true ∧ isSpaceCh c = false ∧ isDigitCh c = false ∧ c ≠ '.' ∧
      ¬(c = ',' ∨ c = ';' ∨ c = '/') ∧ c ≠ '+' ∧ c ≠ '-' := by
  rcases h with rfl | rfl | rfl | rfl <;> decide

/-- Facts about an east/west hemisphere letter. -/
theorem ew_letter_facts {c : Char} (h : c = 'E' ∨ c = 'W' ∨ c = 'e' ∨ c = 'w') :
    hemiEW c = true ∧ isSpaceCh c = false ∧ isDigitCh c = false ∧ c ≠ '.' := by
  rcases h with rfl | rfl | rfl | rfl <;> decide

/-- Take-while over a front segment that satisfies the test everywhere. -/
theorem takeWhileCh_append_all {p : Char → Bool} {l1 : List Char} (l2 : List Char)
    (h : ∀ c ∈ l1, p c = true) :
    takeWhileCh p (l1 ++ l2) = l1 ++ takeWhileCh p l2 := by
  induction l1 with
  | nil => rfl
  | cons c t ih =>
    have hc : p c = true := h c (by simp)
    have ht : ∀ c2 ∈ t, p c2 = true := fun c2 hm => h c2 (by simp [hm])
    simp [takeWhileCh, hc, ih ht]

/-- Drop-while over a front segment that satisfies the test everywhere. -/
theorem dropWhileCh_append_all {p : Char → Bool} {l1 : List Char} (l2 : List Char)
    (h : ∀ c ∈ l1, p c = true) :
    dropWhileCh p (l1 ++ l2) = dropWhileCh p l2 := by
  induction l1 with
  | nil => rfl
  | cons c t ih =>
    have hc : p c = true := h c (by simp)
    have ht : ∀ c2 ∈ t, p c2 = true := fun c2 hm => h c2 (by simp [hm])
    simp [dropWhileCh, hc, ih ht]

/-- Take-while stops immediately at a failing head. -/
theorem takeWhileCh_cons_false {p : Char → Bool} {c : Char} (t : List Char)
    (h : p c = false) : takeWhileCh p (c :: t) = [] := by
  simp [takeWhileCh, h]

/-- Drop-while keeps a list whose head fails the test. -/
theorem dropWhileCh_cons_false {p : Char → Bool} {c : Char} (t : List Char)
    (h : p c = false) : dropWhileCh p (c :: t) = c :: t := by
  simp [dropWhileCh, h]

/-- Take-while of a list whose head, if any, fails the test. -/
theorem takeWhileCh_stop {p : Char → Bool} {l : List Char}
    (h : ∀ c t, l = c :: t → p c = false) : takeWhileCh p l = [] := by
  cases l with
  | nil => rfl
  | cons c t => exact takeWhileCh_cons_false t (h c t rfl)

/-- Drop-while of a list whose head, if any, fails the test. -/
theorem dropWhileCh_stop {p : Char → Bool} {l : List Char}
    (h : ∀ c t, l = c :: t → p c = false) : dropWhileCh p l = l := by
  cases l with
  | nil => rfl
  | cons c t => exact dropWhileCh_cons_false t (h c t rfl)

/-- The sign matcher consumes nothing when the head is not a sign. -/
theorem matchSign_eq_nil {l : List Char}
    (h : ∀ c t, l = c :: t → c ≠ '+' ∧ c ≠ '-') : matchSign l = ([], l) := by
  unfold matchSign
  split
  · exact absurd rfl (h '+' _ rfl).1
  · exact absurd rfl (h '-' _ rfl).2
  · rfl

/-- The number matcher on a well-formed number followed by safe input: it
consumes exactly the number and returns the digit groups. -/
theorem matchUnsignedNumber_exact (d : List Char) (f : Option (List Char))
    (rest : List Char) (hd : d ≠ []) (hdall : ∀ c ∈ d, isDigitCh c = true)
    (hf : ∀ fs, f = some fs → fs ≠ [] ∧ ∀ c ∈ fs, isDigitCh c = true)
    (hrest : ∀ c t, rest = c :: t → isDigitCh c = false ∧ c ≠ '.') :
    matchUnsignedNumber (numChars d f ++ rest) = some (d, f, rest) := by
  have htakeRest : takeWhileCh isDigitCh rest = [] :=
    takeWhileCh_stop (fun c t hh => (hrest c t hh).1)
  have hdropRest : dropWhileCh isDigitCh rest = rest :=
    dropWhileCh_stop (fun c t hh => (hrest c t hh).1)
  obtain ⟨c0, d0, rfl⟩ := List.exists_cons_of_ne_nil hd
  cases f with
  | none =>
    have h1 : takeWhileCh isDigitCh ((c0 :: d0) ++ rest) = c0 :: d0 := by
      rw [takeWhileCh_append_all rest hdall, htakeRest, List.append_nil]
    have h2 : dropWhileCh isDigitCh ((c0 :: d0) ++ rest) = rest := by
      rw [dropWhileCh_append_all rest hdall, hdropRest]
    simp only [numChars, matchUnsignedNumber, h1, h2, List.isEmpty_cons, Bool.false_eq_true,
      if_false, reduceIte]
    cases rest with
    | nil => rfl
    | cons c t =>
      have hc := hrest c t rfl
      split
      · next r2 heq =>
          rw [List.cons.injEq] at heq
          exact absurd heq.1 hc.2
      · rfl
  | some fs =>
    have hfs := hf fs rfl
    obtain ⟨cf, fs0, rfl⟩ := List.exists_cons_of_ne_nil hfs.1
    have h1 : takeWhileCh isDigitCh (((c0 :: d0) ++ '.' :: (cf :: fs0)) ++ rest) =
        c0 :: d0 := by
      rw [List.append_assoc, takeWhileCh_append_all _ hdall,
        show ('.' :: (cf :: fs0)) ++ rest = '.' :: ((cf :: fs0) ++ rest) from rfl,
        takeWhileCh_cons_false _ (by decide), List.append_nil]
    have h2 : dropWhileCh isDigitCh (((c0 :: d0) ++ '.' :: (cf :: fs0)) ++ rest) =
        '.' :: ((cf :: fs0) ++ rest) := by
      rw [List.append_assoc, dropWhileCh_append_all _ hdall,
        show ('.' :: (cf :: fs0)) ++ rest = '.' :: ((cf :: fs0) ++ rest) from rfl,
        dropWhileCh_cons_false _ (by decide)]
    have h3 : takeWhileCh isDigitCh ((cf :: fs0) ++ rest) = cf :: fs0 := by
      rw [takeWhileCh_append_all rest hfs.2, htakeRest, List.append_nil]
    have h4 : dropWhileCh isDigitCh ((cf :: fs0) ++ rest) = rest := by
      rw [dropWhileCh_append_all rest hfs.2, hdropRest]
    simp only [numChars, matchUnsignedNumber, h1, h2, h3, h4, List.isEmpty_cons,
      Bool.false_eq_true, if_false, reduceIte]

/-- A number's characters start with its first digit. -/
theorem numChars_shape (c : Char) (d : List Char) (f : Option (List Char)) :
    ∃ t, numChars (c :: d) f = c :: t := by
  cases f <;> simp [numChars]

/-- After a run of whitespace, a safe character heads the remaining input. -/
theorem spaces_then_head_safe {w : List Char} {c0 : Char} {tail : List Char}
    (hw : ∀ c ∈ w, isSpaceCh c = true) (h1 : isDigitCh c0 = false) (h2 : c0 ≠ '.') :
    ∀ c t, (w ++ (c0 :: tail)) = c :: t → isDigitCh c = false ∧ c ≠ '.' := by
  cases w with
  | nil =>
    intro c t h
    rw [List.nil_append] at h
    rw [List.cons.injEq] at h
    exact h.1 ▸ ⟨h1, h2⟩
  | cons cw tw =>
    intro c t h
    rw [List.cons_append, List.cons.injEq] at h
    have hsp := space_not_digit_dot (hw cw (by simp))
    exact h.1 ▸ ⟨hsp.1, hsp.2.1⟩

/-- Stripping is the identity on a list with no whitespace at either end. -/
theorem py_strip_id {l : List Char}
    (hhead : ∀ c t, l = c :: t → isSpaceCh c = false)
    (hlast : ∀ c, l.getLast? = some c → isSpaceCh c = false) :
    py_strip l = l := by
  unfold py_strip
  cases hrev : l.reverse with
  | nil =>
    have hnil : l = [] := by
      have := congrArg List.reverse hrev
      simpa using this
    subst hnil
    rfl
  | cons c t =>
    have hc : l.getLast? = some c := by
      rw [← List.head?_reverse, hrev]
      rfl
    rw [dropWhileCh_cons_false t (hlast c hc), ← hrev, List.reverse_reverse]
    exact dropWhileCh_stop hhead

/-- The degree-with-hemisphere attempt succeeds on an input assembled from a
number, whitespace, a north/south letter, a nonempty non-numeric separator, a
second number, whitespace, and an east/west letter, and returns exactly the
two digit groups and the two letters. -/
theorem degreeTryAt_assembled (d1 d2 sep w1 w2 : List Char)
    (f1 f2 : Option (List Char)) (ns ew : Char)
    (hd1 : d1 ≠ []) (hd1a : ∀ c ∈ d1, isDigitCh c = true)
    (hf1 : ∀ fs, f1 = some fs → fs ≠ [] ∧ ∀ c ∈ fs, isDigitCh c = true)
    (hd2 : d2 ≠ []) (hd2a : ∀ c ∈ d2, isDigitCh c = true)
    (hf2 : ∀ fs, f2 = some fs → fs ≠ [] ∧ ∀ c ∈ fs, isDigitCh c = true)
    (hw1 : ∀ c ∈ w1, isSpaceCh c = true) (hw2 : ∀ c ∈ w2, isSpaceCh c = true)
    (hsep : sep ≠ []) (hsepa : ∀ c ∈ sep, isSepCh c = true)
    (hns : ns = 'N' ∨ ns = 'S' ∨ ns = 'n' ∨ ns = 's')
    (hew : ew = 'E' ∨ ew = 'W' ∨ ew = 'e' ∨ ew = 'w') :
    degreeTryAt
        (numChars d1 f1 ++ (w1 ++ (ns :: (sep ++ (numChars d2 f2 ++ (w2 ++ [ew])))))) =
      some ⟨d1, f1, ns, d2, f2, ew⟩ := by
  obtain ⟨hnsH, hnsS, hnsD, hnsDot, hnsSep, hnsP, hnsM⟩ := ns_letter_facts hns
  obtain ⟨hewH, hewS, hewD, hewDot⟩ := ew_letter_facts hew
  obtain ⟨c2, d20, rfl⟩ := List.exists_cons_of_ne_nil hd2
  obtain ⟨t2, hshape2⟩ := numChars_shape c2 d20 f2
  obtain ⟨cs, s0, rfl⟩ := List.exists_cons_of_ne_nil hsep
  have hc2d : isDigitCh c2 = true := hd2a c2 (by simp)
  have h1 : matchUnsignedNumber
      (numChars d1 f1 ++ (w1 ++ (ns :: ((cs :: s0) ++ (numChars (c2 :: d20) f2 ++ (w2 ++ [ew])))))) =
      some (d1, f1, w1 ++ (ns :: ((cs :: s0) ++ (numChars (c2 :: d20) f2 ++ (w2 ++ [ew]))))) :=
    matchUnsignedNumber_exact d1 f1 _ hd1 hd1a hf1
      (spaces_then_head_safe hw1 hnsD hnsDot)
  have h2 : dropWhileCh isSpaceCh
      (w1 ++ (ns :: ((cs :: s0) ++ (numChars (c2 :: d20) f2 ++ (w2 ++ [ew]))))) =
      ns :: ((cs :: s0) ++ (numChars (c2 :: d20) f2 ++ (w2 ++ [ew]))) := by
    rw [dropWhileCh_append_all _ hw1, dropWhileCh_cons_false _ hnsS]
  have htail2 : takeWhileCh isSepCh (numChars (c2 :: d20) f2 ++ (w2 ++ [ew])) = [] := by
    rw [hshape2, List.cons_append, takeWhileCh_cons_false _ (digit_not_sep hc2d)]
  have hdrop2 : dropWhileCh isSepCh (numChars (c2 :: d20) f2 ++ (w2 ++ [ew])) =
      numChars (c2 :: d20) f2 ++ (w2 ++ [ew]) := by
    rw [hshape2, List.cons_append, dropWhileCh_cons_false _ (digit_not_sep hc2d),
      ← List.cons_append, ← hshape2]
  have h3 : takeWhileCh isSepCh
      ((cs :: s0) ++ (numChars (c2 :: d20) f2 ++ (w2 ++ [ew]))) = cs :: s0 := by
    rw [takeWhileCh_append_all _ hsepa, htail2, List.append_nil]
  have h4 : dropWhileCh isSepCh
      ((cs :: s0) ++ (numChars (c2 :: d20) f2 ++ (w2 ++ [ew]))) =
      numChars (c2 :: d20) f2 ++ (w2 ++ [ew]) := by
    rw [dropWhileCh_append_all _ hsepa, hdrop2]
  have h5 : matchUnsignedNumber (numChars (c2 :: d20) f2 ++ (w2 ++ [ew])) =
      some (c2 :: d20, f2, w2 ++ [ew]) :=
    matchUnsignedNumber_exact (c2 :: d20) f2 _ (by simp) hd2a hf2
      (spaces_then_head_safe hw2 hewD hewDot)
  have h6 : dropWhileCh isSpaceCh (w2 ++ [ew]) = [ew] := by
    rw [dropWhileCh_append_all _ hw2]
    exact dropWhileCh_cons_false _ hewS
  simp only [degreeTryAt, h1, h2, h3, h4, h5, h6, hnsH, hewH, List.isEmpty_cons,
    Bool.false_eq_true, if_false, if_true, reduceIte]

/-- The anchored decimal-pair pattern fails on an input assembled in the
degree-with-hemisphere shape: the north/south letter is not one of the three
pair separators. -/
theorem decimalPairMatch_assembled_none (d1 sep w1 : List Char) (rest2 : List Char)
    (f1 : Option (List Char)) (ns : Char)
    (hd1 : d1 ≠ []) (hd1a : ∀ c ∈ d1, isDigitCh c = true)
    (hf1 : ∀ fs, f1 = some fs → fs ≠ [] ∧ ∀ c ∈ fs, isDigitCh c = true)
    (hw1 : ∀ c ∈ w1, isSpaceCh c = true)
    (hns : ns = 'N' ∨ ns = 'S' ∨ ns = 'n' ∨ ns = 's') :
    decimalPairMatch (numChars d1 f1 ++ (w1 ++ (ns :: (sep ++ rest2)))) = none := by
  obtain ⟨hnsH, hnsS, hnsD, hnsDot, hnsSep, hnsP, hnsM⟩ := ns_letter_facts hns
  obtain ⟨c1, d10, rfl⟩ := List.exists_cons_of_ne_nil hd1
  obtain ⟨t1, hshape1⟩ := numChars_shape c1 d10 f1
  have hc1d : isDigitCh c1 = true := hd1a c1 (by simp)
  have hc1 := digit_not_special hc1d
  have h0 : dropWhileCh isSpaceCh
      (numChars (c1 :: d10) f1 ++ (w1 ++ (ns :: (sep ++ rest2)))) =
      numChars (c1 :: d10) f1 ++ (w1 ++ (ns :: (sep ++ rest2))) := by
    rw [hshape1, List.cons_append, dropWhileCh_cons_false _ (digit_not_space hc1d),
      ← List.cons_append, ← hshape1]
  have hsign : matchSign (numChars (c1 :: d10) f1 ++ (w1 ++ (ns :: (sep ++ rest2)))) =
      ([], numChars (c1 :: d10) f1 ++ (w1 ++ (ns :: (sep ++ rest2)))) := by
    apply matchSign_eq_nil
    intro c t h
    rw [hshape1, List.cons_append, List.cons.injEq] at h
    exact h.1 ▸ ⟨hc1.2.1, hc1.2.2.1⟩
  have h1 : matchUnsignedNumber
      (numChars (c1 :: d10) f1 ++ (w1 ++ (ns :: (sep ++ rest2)))) =
      some (c1 :: d10, f1, w1 ++ (ns :: (sep ++ rest2))) :=
    matchUnsignedNumber_exact (c1 :: d10) f1 _ (by simp) hd1a hf1
      (spaces_then_head_safe hw1 hnsD hnsDot)
  have h2 : dropWhileCh isSpaceCh (w1 ++ (ns :: (sep ++ rest2))) =
      ns :: (sep ++ rest2) := by
    rw [dropWhileCh_append_all _ hw1, dropWhileCh_cons_false _ hnsS]
  simp only [decimalPairMatch, h0, hsign, h1, h2, hnsSep, if_false, reduceIte]

/-- C7: on every input assembled in the degree-with-hemisphere form (a
number, whitespace, a north/south letter of either case, a nonempty
non-numeric separator, a second number, whitespace, an east/west letter of
either case) the coordinate parser returns the two numbers, with the
latitude carrying a leading minus exactly when the first letter is S or s
and the longitude carrying one exactly when the second letter is W or w. -/
theorem c7_degree_negation (d1 d2 sep w1 w2 : List Char)
    (f1 f2 : Option (List Char)) (ns ew : Char)
    (hd1 : d1 ≠ []) (hd1a : ∀ c ∈ d1, isDigitCh c = true)
    (hf1 : ∀ fs, f1 = some fs → fs ≠ [] ∧ ∀ c ∈ fs, isDigitCh c = true)
    (hd2 : d2 ≠ []) (hd2a : ∀ c ∈ d2, isDigitCh c = true)
    (hf2 : ∀ fs, f2 = some fs → fs ≠ [] ∧ ∀ c ∈ fs, isDigitCh c = true)
    (hw1 : ∀ c ∈ w1, isSpaceCh c = true) (hw2 : ∀ c ∈ w2, isSpaceCh c = true)
    (hsep : sep ≠ []) (hsepa : ∀ c ∈ sep, isSepCh c = true)
    (hns : ns = 'N' ∨ ns = 'S' ∨ ns = 'n' ∨ ns = 's')
    (hew : ew = 'E' ∨ ew = 'W' ∨ ew = 'e' ∨ ew = 'w') :
    parse_lat_lon (String.mk
        (numChars d1 f1 ++ (w1 ++ (ns :: (sep ++ (numChars d2 f2 ++ (w2 ++ [ew]))))))) =
      (String.mk (floatStrOf (is_south ns) d1 f1),
       String.mk (floatStrOf (is_west ew) d2 f2)) := by
  obtain ⟨hnsH, hnsS, hnsD, hnsDot, hnsSep, hnsP, hnsM⟩ := ns_letter_facts hns
  obtain ⟨hewH, hewS, hewD, hewDot⟩ := ew_letter_facts hew
  have htry := degreeTryAt_assembled d1 d2 sep w1 w2 f1 f2 ns ew
    hd1 hd1a hf1 hd2 hd2a hf2 hw1 hw2 hsep hsepa hns hew
  have hdec := decimalPairMatch_assembled_none d1 sep w1
    (numChars d2 f2 ++ (w2 ++ [ew])) f1 ns hd1 hd1a hf1 hw1 hns
  obtain ⟨c1, d10, rfl⟩ := List.exists_cons_of_ne_nil hd1
  obtain ⟨t1, hshape1⟩ := numChars_shape c1 d10 f1
  have hc1d : isDigitCh c1 = true := hd1a c1 (by simp)
  have hA : numChars (c1 :: d10) f1 ++
      (w1 ++ (ns :: (sep ++ (numChars d2 f2 ++ (w2 ++ [ew]))))) =
      c1 :: (t1 ++ (w1 ++ (ns :: (sep ++ (numChars d2 f2 ++ (w2 ++ [ew])))))) := by
    rw [hshape1, List.cons_append]
  have hconcat : numChars (c1 :: d10) f1 ++
      (w1 ++ (ns :: (sep ++ (numChars d2 f2 ++ (w2 ++ [ew]))))) =
      (numChars (c1 :: d10) f1 ++ (w1 ++ (ns :: (sep ++ (numChars d2 f2 ++ w2))))) ++ [ew] := by
    simp [List.append_assoc]
  have hlastA : (numChars (c1 :: d10) f1 ++
      (w1 ++ (ns :: (sep ++ (numChars d2 f2 ++ (w2 ++ [ew])))))).getLast? = some ew := by
    rw [hconcat, List.getLast?_concat]
  have hstrip : py_strip (numChars (c1 :: d10) f1 ++
      (w1 ++ (ns :: (sep ++ (numChars d2 f2 ++ (w2 ++ [ew])))))) =
      numChars (c1 :: d10) f1 ++ (w1 ++ (ns :: (sep ++ (numChars d2 f2 ++ (w2 ++ [ew]))))) := by
    apply py_strip_id
    · intro c t h
      rw [hA, List.cons.injEq] at h
      exact h.1 ▸ digit_not_space hc1d
    · intro c h
      rw [hlastA, Option.some.injEq] at h
      exact h ▸ hewS
  have hsearch : degreeSearch (numChars (c1 :: d10) f1 ++
      (w1 ++ (ns :: (sep ++ (numChars d2 f2 ++ (w2 ++ [ew])))))) =
      some ⟨c1 :: d10, f1, ns, d2, f2, ew⟩ := by
    rw [hA]
    rw [degreeSearch]
    rw [← hA, htry]
  have hdata : (String.mk (numChars (c1 :: d10) f1 ++
      (w1 ++ (ns :: (sep ++ (numChars d2 f2 ++ (w2 ++ [ew]))))))).data =
      numChars (c1 :: d10) f1 ++ (w1 ++ (ns :: (sep ++ (numChars d2 f2 ++ (w2 ++ [ew]))))) := rfl
  have hempty : (numChars (c1 :: d10) f1 ++
      (w1 ++ (ns :: (sep ++ (numChars d2 f2 ++ (w2 ++ [ew])))))).isEmpty = false := by
    rw [hA]
    rfl
  simp only [parse_lat_lon, hdata, hempty, hstrip, hdec, hsearch,
    Bool.false_eq_true, if_false, reduceIte]

/-- C7 witness: the parser sends 12.3 N 45.6 W to the pair 12.3, -45.6. -/
theorem c7_witness : parse_lat_lon "12.3 N 45.6 W" = ("12.3", "-45.6") := by
  have h := c7_degree_negation ['1', '2'] ['4', '5'] [' '] [' '] [' ']
    (some ['3']) (some ['6']) 'N' 'W'
    (by decide) (by decide)
    (fun fs hfs => by injection hfs with h2; subst h2; decide)
    (by decide) (by decide)
    (fun fs hfs => by injection hfs with h2; subst h2; decide)
    (by decide) (by decide) (by decide) (by decide)
    (Or.inl rfl) (Or.inr (Or.inl rfl))
  have e0 : String.mk (numChars ['1', '2'] (some ['3']) ++
      ([' '] ++ ('N' :: ([' '] ++ (numChars ['4', '5'] (some ['6']) ++ ([' '] ++ ['W'])))))) =
      "12.3 N 45.6 W" := by decide
  have e1 : String.mk (floatStrOf (is_south 'N') ['1', '2'] (some ['3'])) = "12.3" := by
    decide
  have e2 : String.mk (floatStrOf (is_west 'W') ['4', '5'] (some ['6'])) = "-45.6" := by
    decide
  rw [e0, e1, e2] at h
  exact h

/-- C8: the coordinate parser is total (it is a Lean function) and returns
the pair of empty strings on the empty input and whenever neither the
decimal-pair pattern nor the degree-with-hemisphere search matches the
stripped input. -/
theorem c8_parser_fallback (s : String)
    (h : s.data = [] ∨ (decimalPairMatch (py_strip s.data) = none ∧
        degreeSearch (py_strip s.data) = none)) :
    parse_lat_lon s = ("", "") := by
  by_cases he : s.data.isEmpty = true
  · simp [parse_lat_lon, he]
  · have he2 : s.data.isEmpty = false := by
      revert he
      cases s.data.isEmpty <;> simp
    rcases h with h | ⟨h1, h2⟩
    · rw [h] at he2
      exact absurd he2 (by decide)
    · simp [parse_lat_lon, he2, h1, h2]

/-- C8 witness: the parser returns two empty strings on the input garbage. -/
theorem c8_witness : parse_lat_lon "garbage" = ("", "") :=
  c8_parser_fallback "garbage" (Or.inr ⟨by decide, by decide⟩)

end Tardigrade
